import Mathlib

/-
Verification of the query-translation pipeline of
`packages/jaeger-ui/src/services/AITranslationService.ts` against its
specification.  The TypeScript source is shallowly embedded: JS objects
become structures with `Option` fields, JSON numbers are modelled as
integers, network effects become an explicit `World` oracle together with
an event trace, and the untyped `Error`s thrown by the source become the
constructors of `TError`.
-/

deriving instance DecidableEq for Except

namespace JaegerNL

/-- Runtime value of the `limit` field of a candidate query: the generation
model may return a JSON number or a JSON string, and the source handles both
(`typeof query.limit !== 'number'`).  JSON numbers are modelled as integers
(the source only ever produces integer limits via `parseInt`). -/
inductive LimitVal where
  | num (n : Int)
  | str (s : String)
  deriving DecidableEq

/-- The `JaegerQuery` interface of `AITranslationService.ts`; `none` models
an absent field. -/
structure JaegerQuery where
  service : Option String := none
  tags : Option String := none
  lookback : Option String := none
  limit : Option LimitVal := none
  minDuration : Option String := none
  maxDuration : Option String := none
  deriving DecidableEq

/-- Cached client state of `AITranslationService`: `this.services` and
`this.serviceRoutes`.  A `none` routes entry models a key that is absent
from the JS object (lookup yields `undefined`). -/
structure CState where
  services : List String
  routes : String → Option (List String)

/-- Errors of the pipeline.  The source throws untyped `Error`s carrying
messages; the constructors model the spec's error taxonomy, with the
source's message text kept where a claim mentions it.  `typeError` models
an untyped runtime `TypeError` (member access on `undefined`). -/
inductive TError where
  | backendUnavailable (msg : String)
  | metadataFetch (msg : String)
  | generationFailed (msg : String)
  | noJsonFound (msg : String)
  | jsonSyntax
  | invalidService (msg : String)
  | typeError
  deriving DecidableEq

/-- JS truthiness of an optional string value: `undefined` and `""` are
falsy, every other string is truthy. -/
def jsTruthyOptStr : Option String → Bool
  | none => false
  | some s => s != ""

/-- JS `parseInt(s, 10)`: skip leading whitespace, an optional single sign,
then take the longest digit prefix; `none` models `NaN` (no digits). -/
def jsParseInt (s : String) : Option Int :=
  let cs := s.data.dropWhile
    (fun c => c = ' ' || c = '\t' || c = '\n' || c = '\r' || c = '\x0b' || c = '\x0c')
  let signAndRest : Int × List Char :=
    match cs with
    | '+' :: r => (1, r)
    | '-' :: r => (-1, r)
    | r => (1, r)
  let ds := signAndRest.2.takeWhile Char.isDigit
  if ds.isEmpty then none
  else some (signAndRest.1 *
    (ds.foldl (fun a c => a * 10 + Int.ofNat (c.toNat - '0'.toNat)) (0 : Int)))

/-- The two `limit` statements of `validateQuery`:
`if (query.limit && typeof query.limit !== 'number') query.limit = parseInt(query.limit, 10) || 100;`
then `if (!query.limit) query.limit = 100;`.  Truthiness of the limit value:
the number `0` and the string `""` are falsy. -/
def limitStep (l : Option LimitVal) : Option LimitVal :=
  let l1 : Option LimitVal :=
    match l with
    | some (.str s) =>
      if s != "" then
        some (.num (match jsParseInt s with
          | some n => if n = 0 then 100 else n
          | none => 100))
      else l
    | _ => l
  match l1 with
  | none => some (.num 100)
  | some (.num n) => if n = 0 then some (.num 100) else l1
  | some (.str s) => if s = "" then some (.num 100) else l1

/-- A unit suffix character of the source's time regexes: `[hdms]`. -/
def unitChar (c : Char) : Bool := c = 'h' || c = 'd' || c = 'm' || c = 's'

/-- The regex `^\d+[hdms]$` used for `lookback`. -/
def matchLookback (cs : List Char) : Bool :=
  let ds := cs.takeWhile Char.isDigit
  let rest := cs.dropWhile Char.isDigit
  !ds.isEmpty && (match rest with | [u] => unitChar u | _ => false)

/-- The regex `^\d+(\.\d+)?[hdms]$` used for `minDuration` / `maxDuration`. -/
def matchDuration (cs : List Char) : Bool :=
  let ds := cs.takeWhile Char.isDigit
  let rest := cs.dropWhile Char.isDigit
  !ds.isEmpty &&
    (match rest with
     | [u] => unitChar u
     | '.' :: r =>
       (!(r.takeWhile Char.isDigit).isEmpty) &&
         (match r.dropWhile Char.isDigit with | [u] => unitChar u | _ => false)
     | _ => false)

/-- Source: `if (query.lookback && !/^\d+[hdms]$/.test(query.lookback)) query.lookback = '1h';` -/
def lookbackStep (l : Option String) : Option String :=
  match l with
  | none => none
  | some s => if s != "" && !matchLookback s.data then some "1h" else some s

/-- Source: `if (query.minDuration && !durationRegex.test(query.minDuration)) delete query.minDuration;`
(and the same for `maxDuration`). -/
def durationStep (d : Option String) : Option String :=
  match d with
  | none => none
  | some s => if s != "" && !matchDuration s.data then none else some s

/-- JS `s.split(' ')`: split on every single space character, keeping empty
fields. -/
def splitSpaces (s : String) : List String :=
  (s.data.splitOn ' ').map String.mk

/-- Key of a candidate tag pair: the first field of `pair.split('=')`
(`const [key, value] = pair.split('=')`). -/
def pairKey (p : String) : String :=
  String.mk ((p.data.splitOn '=').headD [])

/-- Value of a candidate tag pair: the second field of `pair.split('=')`,
`none` when the pair contains no `=` (JS `undefined`). -/
def pairValue (p : String) : Option String :=
  ((p.data.splitOn '=').get? 1).map String.mk

/-- A character of the regex class `[a-zA-Z0-9._-]`. -/
def isTagChar (c : Char) : Bool := c.isAlphanum || c = '.' || c = '_' || c = '-'

/-- Continuation of the regex `^[a-zA-Z0-9._-]+=`: after at least one class
character, either `=` now or another class character and continue. -/
def matchTagPairRest : List Char → Bool
  | [] => false
  | c :: cs => c = '=' || (isTagChar c && matchTagPairRest cs)

/-- The test `/^[a-zA-Z0-9._-]+=/.test(pair)`. -/
def matchTagPair : List Char → Bool
  | [] => false
  | c :: cs => isTagChar c && matchTagPairRest cs

/-- The tag-filter callback of `validateQuery`:
`if (!key || !value) return false;` then the `http.route` special case
(`this.serviceRoutes[query.service]?.includes(value) || false`), else the
logfmt regex test on the whole pair. -/
def keepTag (st : CState) (svc : Option String) (pair : String) : Bool :=
  match pairValue pair with
  | none => false
  | some v =>
    if pairKey pair = "" || v = "" then false
    else if pairKey pair = "http.route" && jsTruthyOptStr svc then
      match st.routes (svc.getD "") with
      | some rs => rs.contains v
      | none => false
    else matchTagPair pair.data

/-- JS `Array.prototype.join(sep)`: elements interleaved with the separator
(empty elements included). -/
def joinSep (sep : String) : List String → String
  | [] => ""
  | [x] => x
  | x :: y :: ys => x ++ sep ++ joinSep sep (y :: ys)

/-- The `tags` block of `validateQuery`: guarded by truthiness of
`query.tags`, split on spaces, filter, re-join, and
`query.tags = validTags.join(' ') || undefined`. -/
def tagsStep (st : CState) (svc : Option String) (t : Option String) : Option String :=
  match t with
  | none => none
  | some s =>
    if s != "" then
      let valid := (splitSpaces s).filter (keepTag st svc)
      let joined := joinSep " " valid
      if joined = "" then none else some joined
    else some s

/-- The message of the invalid-service `Error` thrown by `validateQuery`. -/
def invalidServiceMsg (s : String) (services : List String) : String :=
  "Invalid service \"" ++ s ++ "\". Available services are: " ++
    joinSep ", " services

/-- Model of `AITranslationService.validateQuery`, translated statement by statement:
limit coercion and default, service membership check (throwing), lookback
silent correction, duration deletion, tag filtering.  The thrown `Error`
becomes `Except.error`, and the sequence of in-place mutations becomes a
record update applied to the incoming query. -/
def validateQuery (st : CState) (q : JaegerQuery) : Except TError JaegerQuery :=
  let q1 : JaegerQuery := { q with limit := limitStep q.limit }
  if jsTruthyOptStr q1.service && !(st.services.contains (q1.service.getD "")) then
    .error (.invalidService (invalidServiceMsg (q1.service.getD "") st.services))
  else
    .ok { q1 with
          lookback := lookbackStep q1.lookback,
          minDuration := durationStep q1.minDuration,
          maxDuration := durationStep q1.maxDuration,
          tags := tagsStep st q1.service q1.tags }

/-- Shape of `validateQuery`: the invalid-service test (on the truthiness of
the incoming service name) decides between the thrown error and the fully
rewritten query record. -/
theorem validateQuery_eq (st : CState) (q : JaegerQuery) :
    validateQuery st q =
      (if (jsTruthyOptStr q.service && !(st.services.contains (q.service.getD ""))) = true
       then .error (.invalidService (invalidServiceMsg (q.service.getD "") st.services))
       else .ok { service := q.service,
                  tags := tagsStep st q.service q.tags,
                  lookback := lookbackStep q.lookback,
                  limit := limitStep q.limit,
                  minDuration := durationStep q.minDuration,
                  maxDuration := durationStep q.maxDuration }) := by
  by_cases hc : (jsTruthyOptStr q.service && !(st.services.contains (q.service.getD ""))) = true <;>
    simp [validateQuery, hc]

/-- The query returned by a successful `validateQuery` is the input with each
field rewritten by its step function. -/
theorem validateQuery_ok_fields (st : CState) (q r : JaegerQuery)
    (h : validateQuery st q = .ok r) :
    r.service = q.service ∧ r.tags = tagsStep st q.service q.tags ∧
    r.lookback = lookbackStep q.lookback ∧ r.limit = limitStep q.limit ∧
    r.minDuration = durationStep q.minDuration ∧ r.maxDuration = durationStep q.maxDuration := by
  rw [validateQuery_eq] at h
  by_cases hc : (jsTruthyOptStr q.service && !(st.services.contains (q.service.getD ""))) = true
  · rw [if_pos hc] at h
    exact absurd h (by simp)
  · rw [if_neg hc] at h
    cases h
    simp

theorem limitStep_str_parse_none (s : String) (hp : jsParseInt s = none) :
    limitStep (some (.str s)) = some (.num 100) := by
  by_cases hs : s = ""
  · subst hs; decide
  · have hbs : (s != "") = true := bne_iff_ne.mpr hs
    simp [limitStep, hbs, hp]

theorem limitStep_str_parse_zero (s : String) (hp : jsParseInt s = some 0) :
    limitStep (some (.str s)) = some (.num 100) := by
  have hs : s ≠ "" := by
    rintro rfl
    rw [show jsParseInt "" = none from rfl] at hp
    cases hp
  have hbs : (s != "") = true := bne_iff_ne.mpr hs
  simp [limitStep, hbs, hp]

theorem limitStep_str_parse_some (s : String) (n : Int) (hp : jsParseInt s = some n)
    (hn : n ≠ 0) : limitStep (some (.str s)) = some (.num n) := by
  have hs : s ≠ "" := by
    rintro rfl
    rw [show jsParseInt "" = none from rfl] at hp
    cases hp
  have hbs : (s != "") = true := bne_iff_ne.mpr hs
  simp [limitStep, hbs, hp, hn]

theorem limitStep_num (n : Int) (hn : n ≠ 0) :
    limitStep (some (.num n)) = some (.num n) := by
  simp [limitStep, hn]

theorem limitStep_isNum (l : Option LimitVal) : ∃ m, limitStep l = some (.num m) := by
  match l with
  | none => exact ⟨100, rfl⟩
  | some (.num n) =>
    by_cases hn : n = 0
    · subst hn; exact ⟨100, rfl⟩
    · exact ⟨n, limitStep_num n hn⟩
  | some (.str s) =>
    by_cases hs : s = ""
    · subst hs; exact ⟨100, by decide⟩
    · cases hp : jsParseInt s with
      | none => exact ⟨100, limitStep_str_parse_none s hp⟩
      | some n =>
        by_cases hn : n = 0
        · subst hn; exact ⟨100, limitStep_str_parse_zero s hp⟩
        · exact ⟨n, limitStep_str_parse_some s n hp hn⟩

example : limitStep (some (.str "50")) = some (.num 50) := by decide
example : limitStep none = some (.num 100) := by decide
example : limitStep (some (.str "abc")) = some (.num 100) := by decide
example : limitStep (some (.num 0)) = some (.num 100) := by decide
example : limitStep (some (.num (-5))) = some (.num (-5)) := by decide
example : matchLookback "24h".data = true := by decide
example : matchLookback "soon".data = false := by decide
example : matchDuration "1.5s".data = true := by decide
example : matchDuration "1.s".data = false := by decide
example : splitSpaces "a=1  b=2" = ["a=1", "", "b=2"] := by decide
example : pairValue "a==b" = some "" := by decide
example : pairKey "=x" = "" := by decide
example : pairValue "a" = none := by decide
example : matchTagPair "error=true".data = true := by decide
example :
    tagsStep ⟨["auth-service"], fun s => if s = "auth-service" then some ["/v1/login"] else none⟩
      (some "auth-service") (some "http.route=/v1/login") = some "http.route=/v1/login" := by
  decide
example :
    tagsStep ⟨["auth-service"], fun s => if s = "auth-service" then some ["/v2/login"] else none⟩
      (some "auth-service") (some "http.route=/v1/login") = none := by
  decide
example :
    validateQuery ⟨[], fun _ => none⟩ { tags := some "error=true http.status_code=500" } =
      .ok { tags := some "error=true http.status_code=500", limit := some (.num 100) } := by
  decide

theorem joinSep_ne_empty (sep : String) (x : String) (xs : List String) (hx : x ≠ "") :
    joinSep sep (x :: xs) ≠ "" := by
  have hx0 : x.length ≠ 0 := by
    intro h0
    exact hx (String.ext (List.length_eq_zero.mp h0))
  cases xs with
  | nil => simpa [joinSep] using hx
  | cons y ys =>
    intro hcontra
    have hlen : (joinSep sep (x :: y :: ys)).length = 0 := by rw [hcontra]; rfl
    rw [show joinSep sep (x :: y :: ys) = x ++ sep ++ joinSep sep (y :: ys) from rfl] at hlen
    simp [String.length_append] at hlen
    omega

/-- The tag-keep rule of the amended claim C1, restated in the claim's
vocabulary: key and value (the first two fields of splitting the pair on
`=`) non-empty, and — when the key is exactly `http.route` and the service
is a truthy string — the value a member of the service's route set (empty
when the service has no routes entry), otherwise the logfmt regex test. -/
def amendedKeepTag (st : CState) (svc : Option String) (p : String) : Bool :=
  pairKey p != "" && (pairValue p).getD "" != "" &&
    (if pairKey p = "http.route" && jsTruthyOptStr svc then
      ((st.routes (svc.getD "")).getD []).contains ((pairValue p).getD "")
    else matchTagPair p.data)

theorem amendedKeepTag_empty (st : CState) (svc : Option String) :
    amendedKeepTag st svc "" = false := rfl

/-- The source's tag filter agrees with the amended claim's restatement. -/
theorem keepTag_eq_amended (st : CState) (svc : Option String) (p : String) :
    keepTag st svc p = amendedKeepTag st svc p := by
  unfold keepTag amendedKeepTag
  cases hv : pairValue p with
  | none => simp
  | some v =>
    by_cases hk : pairKey p = ""
    · simp [hk]
    · by_cases hvv : v = ""
      · simp [hk, hvv]
      · simp only [hk, hvv, bne_iff_ne, ne_eq, not_false_eq_true, Option.getD_some,
          Bool.and_true, Bool.true_and, if_false, or_self, Bool.false_eq_true]
        by_cases hr : (pairKey p = "http.route" && jsTruthyOptStr svc) = true
        · simp only [hr, if_true]
          cases st.routes (svc.getD "") <;> simp [hk, hvv]
        · simp only [Bool.not_eq_true] at hr
          simp [hr, hk, hvv]

/-- Whitespace for the spec-variant tags split (the claim's reading). -/
def isWsChar (c : Char) : Bool := c = ' ' || c = '\t' || c = '\n' || c = '\r'

/-- Split a character list on runs of whitespace, dropping empty fields —
the natural reading of the claim's "splits the tags on whitespace". -/
def splitWsGo : List Char → List Char → List (List Char)
  | [], acc => if acc.isEmpty then [] else [acc.reverse]
  | c :: cs, acc =>
    if isWsChar c then
      (if acc.isEmpty then splitWsGo cs [] else acc.reverse :: splitWsGo cs [])
    else splitWsGo cs (c :: acc)

/-- Modelled from the spec's words for claim C1 (refinement comparison
definition, not from the source): keep a candidate pair when its key and
value are non-empty and the pair matches `^[a-zA-Z0-9._-]+=`, and — when the
key is exactly `http.route` and the service field is set — only when the
value is a member of the service's route set. -/
def claimKeepTag (st : CState) (svc : Option String) (p : String) : Bool :=
  pairKey p != "" && (pairValue p).getD "" != "" && matchTagPair p.data &&
    (!(pairKey p = "http.route" && svc.isSome) ||
      ((st.routes (svc.getD "")).getD []).contains ((pairValue p).getD ""))

/-- Modelled from the spec's words for claim C1 (refinement comparison
definition, not from the source): split the tags string on whitespace, keep
the pairs `claimKeepTag` accepts, join with single spaces, absent when none
survive. -/
def claimTagsNormalize (st : CState) (svc : Option String) (s : String) : Option String :=
  let kept := ((splitWsGo s.data []).map String.mk).filter (claimKeepTag st svc)
  if kept.isEmpty then none else some (joinSep " " kept)

/-- C1 (counterexample): the claim says tags are split on whitespace; the
source splits on single space characters only (`query.tags.split(' ')`).
On the tab-separated input `"x\ty=2"` the source sees one pair whose key
fails the logfmt regex and clears the field, while the claim's
whitespace-splitting reading keeps the valid pair `"y=2"`. -/
theorem C1_cex :
    validateQuery ⟨[], fun _ => none⟩ ({ tags := some "x\ty=2" } : JaegerQuery) =
      .ok { tags := none, limit := some (.num 100) } ∧
    claimTagsNormalize ⟨[], fun _ => none⟩ none "x\ty=2" = some "y=2" := by
  constructor
  · decide
  · decide

/-- C1 (amended): for every candidate query whose tags field is a non-empty
string, `validateQuery` splits it on single space characters (not general
whitespace); a candidate pair is kept exactly when the first two fields of
splitting it on `=` (key and value) are non-empty and — when the key is
exactly `http.route` and the service is a truthy string — the value is a
member of the service's route set (empty when the service has no routes
entry), otherwise when the pair matches `^[a-zA-Z0-9._-]+=`; surviving
pairs are joined with single spaces, and when none survive the field is
absent.  The present empty tags string escapes the truthiness guard and is
returned unchanged. -/
theorem C1_thm (st : CState) (q r : JaegerQuery) (h : validateQuery st q = .ok r) :
    (∀ s, q.tags = some s → s ≠ "" →
      (∀ p, keepTag st q.service p = amendedKeepTag st q.service p) ∧
      ((splitSpaces s).filter (amendedKeepTag st q.service) = [] → r.tags = none) ∧
      ((splitSpaces s).filter (amendedKeepTag st q.service) ≠ [] →
        r.tags = some (joinSep " " ((splitSpaces s).filter (amendedKeepTag st q.service))))) ∧
    (q.tags = some "" → r.tags = some "") ∧
    (q.tags = none → r.tags = none) := by
  obtain ⟨-, hT, -, -, -, -⟩ := validateQuery_ok_fields st q r h
  refine ⟨?_, ?_, ?_⟩
  · intro s hq hne
    refine ⟨fun p => keepTag_eq_amended st q.service p, ?_, ?_⟩ <;>
      rw [hT, hq] <;>
      simp only [tagsStep, bne_iff_ne.mpr hne, if_true] <;>
      rw [List.filter_congr (fun p _ => keepTag_eq_amended st q.service p)]
    · intro hk
      rw [hk]
      rfl
    · intro hk
      match hkk : (splitSpaces s).filter (amendedKeepTag st q.service) with
      | [] => exact absurd hkk hk
      | x :: xs =>
        have hxmem : x ∈ (splitSpaces s).filter (amendedKeepTag st q.service) := by
          rw [hkk]; exact List.mem_cons_self x xs
        have hxkeep : amendedKeepTag st q.service x = true := (List.mem_filter.mp hxmem).2
        have hxne : x ≠ "" := by
          rintro rfl
          rw [amendedKeepTag_empty] at hxkeep
          cases hxkeep
        rw [if_neg (joinSep_ne_empty " " x xs hxne)]
  · intro hq
    rw [hT, hq]
    rfl
  · intro hq
    rw [hT, hq]
    rfl

/-- C1 (witness): concrete run of the amended theorem — with service
`auth-service` whose catalog routes are `["/v1/login"]`, the tags string
`"http.route=/v1/login error=true"` survives intact. -/
theorem C1_witness :
    validateQuery
        ⟨["auth-service"], fun s => if s = "auth-service" then some ["/v1/login"] else none⟩
        ({ service := some "auth-service", tags := some "http.route=/v1/login error=true" } :
          JaegerQuery) =
      .ok { service := some "auth-service", tags := some "http.route=/v1/login error=true",
            limit := some (.num 100) } ∧
    ({ service := some "auth-service", tags := some "http.route=/v1/login error=true",
       limit := some (.num 100) } : JaegerQuery).tags =
      some "http.route=/v1/login error=true" := by
  refine ⟨by decide, ?_⟩
  have hmain :=
    ((C1_thm ⟨["auth-service"], fun s => if s = "auth-service" then some ["/v1/login"] else none⟩
        { service := some "auth-service", tags := some "http.route=/v1/login error=true" }
        { service := some "auth-service", tags := some "http.route=/v1/login error=true",
          limit := some (.num 100) } (by decide)).1
      "http.route=/v1/login error=true" rfl (by decide)).2.2 (by decide)
  exact hmain.trans (by decide)

/-- C2 (counterexample): the claim says a present service that is not a
known catalog name always fails with `InvalidServiceError`; but the source
guards the check with JS truthiness (`if (query.service && ...)`), so the
present-but-empty service `""` — not a member of the catalog
`["auth-service"]` — is returned unchanged without any error. -/
theorem C2_cex :
    validateQuery ⟨["auth-service"], fun _ => none⟩ ({ service := some "" } : JaegerQuery) =
      .ok { service := some "", limit := some (.num 100) } := by
  decide

/-- C2 (amended): for every candidate query, if the service field is present
and non-empty and not one of the catalog's service names, `validateQuery`
fails with an invalid-service error whose message names the offending value
and lists the valid services; a present member of the catalog is preserved
unchanged in a successful result; an absent service is not an error. -/
theorem C2_thm (st : CState) (q : JaegerQuery) :
    (∀ s, q.service = some s → s ≠ "" → s ∉ st.services →
      validateQuery st q = .error (.invalidService (invalidServiceMsg s st.services))) ∧
    (∀ s, q.service = some s → s ∈ st.services →
      ∃ r, validateQuery st q = .ok r ∧ r.service = some s) ∧
    (q.service = none → ∃ r, validateQuery st q = .ok r ∧ r.service = none) := by
  refine ⟨?_, ?_, ?_⟩
  · intro s hs hne hmem
    rw [validateQuery_eq, if_pos (by simp [hs, jsTruthyOptStr, hmem, bne_iff_ne, hne])]
    simp [hs]
  · intro s hs hmem
    rw [validateQuery_eq, if_neg (by simp [hs, jsTruthyOptStr, hmem])]
    exact ⟨_, rfl, by simp [hs]⟩
  · intro hs
    rw [validateQuery_eq, if_neg (by simp [hs, jsTruthyOptStr])]
    exact ⟨_, rfl, by simp [hs]⟩

/-- C2 (witness): concrete run of the amended theorem — unknown non-empty
service `"payment"` against catalog `["auth-service"]` is rejected with the
message naming it and listing the valid services. -/
theorem C2_witness :
    validateQuery ⟨["auth-service"], fun _ => none⟩ ({ service := some "payment" } : JaegerQuery) =
      .error (.invalidService (invalidServiceMsg "payment" ["auth-service"])) :=
  (C2_thm ⟨["auth-service"], fun _ => none⟩ { service := some "payment" }).1
    "payment" rfl (by decide) (by decide)

/-- C3 (counterexample): the claim says the limit of any successfully
returned query is always a positive integer; but a limit that is already a
non-zero number is left untouched by the source (`!query.limit` is false),
so the negative limit `-5` is returned unchanged. -/
theorem C3_cex :
    validateQuery ⟨[], fun _ => none⟩ ({ limit := some (.num (-5)) } : JaegerQuery) =
      .ok { limit := some (.num (-5)) } ∧ ¬ (0 : Int) < -5 := by
  constructor
  · decide
  · decide

/-- C3 (amended): the returned limit is always a number; an absent, zero, or
unparsable-string limit becomes `100`; a numeric string is coerced through
`parseInt` (so `"50"` becomes the integer `50`); but a limit that is already
a non-zero number — including a negative one — is returned unchanged, so the
result is only guaranteed positive when the input limit is absent, zero, or
a string that does not parse to a negative integer. -/
theorem C3_thm (st : CState) (q r : JaegerQuery) (h : validateQuery st q = .ok r) :
    (q.limit = none → r.limit = some (.num 100)) ∧
    (q.limit = some (.num 0) → r.limit = some (.num 100)) ∧
    (∀ s, q.limit = some (.str s) → jsParseInt s = none → r.limit = some (.num 100)) ∧
    (∀ s n, q.limit = some (.str s) → jsParseInt s = some n → n ≠ 0 →
      r.limit = some (.num n)) ∧
    (∀ n, q.limit = some (.num n) → n ≠ 0 → r.limit = some (.num n)) ∧
    (∃ m, r.limit = some (.num m)) ∧
    ((q.limit = none ∨ q.limit = some (.num 0) ∨
        (∃ s, q.limit = some (.str s) ∧ ∀ n, jsParseInt s = some n → 0 ≤ n)) →
      ∃ m, r.limit = some (.num m) ∧ 0 < m) := by
  obtain ⟨-, -, -, hl, -, -⟩ := validateQuery_ok_fields st q r h
  refine ⟨?_, ?_, ?_, ?_, ?_, ?_, ?_⟩
  · intro hq; rw [hl, hq]; rfl
  · intro hq; rw [hl, hq]; rfl
  · intro s hq hp; rw [hl, hq]; exact limitStep_str_parse_none s hp
  · intro s n hq hp hn; rw [hl, hq]; exact limitStep_str_parse_some s n hp hn
  · intro n hq hn; rw [hl, hq]; exact limitStep_num n hn
  · rw [hl]; exact limitStep_isNum q.limit
  · rintro (hq | hq | ⟨s, hq, hnn⟩)
    · exact ⟨100, by rw [hl, hq]; rfl, by norm_num⟩
    · exact ⟨100, by rw [hl, hq]; rfl, by norm_num⟩
    · rw [hl, hq]
      by_cases hs : s = ""
      · subst hs; exact ⟨100, by decide, by norm_num⟩
      · cases hp : jsParseInt s with
        | none => exact ⟨100, limitStep_str_parse_none s hp, by norm_num⟩
        | some n =>
          by_cases hn : n = 0
          · subst hn; exact ⟨100, limitStep_str_parse_zero s hp, by norm_num⟩
          · refine ⟨n, limitStep_str_parse_some s n hp hn, ?_⟩
            have := hnn n hp
            omega

/-- C3 (witness): concrete run of the amended theorem — the numeric string
`"50"` is coerced to the integer `50`. -/
theorem C3_witness :
    validateQuery ⟨[], fun _ => none⟩ ({ limit := some (.str "50") } : JaegerQuery) =
      .ok { limit := some (.num 50) } ∧
    ({ limit := some (.num 50) } : JaegerQuery).limit = some (.num 50) :=
  ⟨by decide,
   (C3_thm ⟨[], fun _ => none⟩ { limit := some (.str "50") } { limit := some (.num 50) }
      (by decide)).2.2.2.1 "50" 50 rfl (by decide) (by decide)⟩

/-- C4 (counterexample): the claim says every present lookback that fails
`^\d+[hdms]$` is overwritten with `"1h"`; but the source guards the rule
with JS truthiness (`if (query.lookback && ...)`), so the present empty
lookback `""` — which does not match the pattern — is returned unchanged. -/
theorem C4_cex :
    validateQuery ⟨[], fun _ => none⟩ ({ lookback := some "" } : JaegerQuery) =
      .ok { lookback := some "", limit := some (.num 100) } ∧
    matchLookback "".data = false := by
  constructor
  · decide
  · decide

/-- C4 (amended): a present, non-empty lookback that does not match
`^\d+[hdms]$` is overwritten with `"1h"` without rejecting the query; a
matching lookback is preserved unchanged; the present empty string `""`
escapes the truthiness guard and is preserved as-is; and no lookback value
can make `validateQuery` fail. -/
theorem C4_thm (st : CState) (q r : JaegerQuery) (h : validateQuery st q = .ok r) :
    (∀ s, q.lookback = some s → s ≠ "" → matchLookback s.data = false →
      r.lookback = some "1h") ∧
    (∀ s, q.lookback = some s → matchLookback s.data = true → r.lookback = some s) ∧
    (q.lookback = some "" → r.lookback = some "") ∧
    (∀ l', ∃ r', validateQuery st { q with lookback := l' } = .ok r') := by
  obtain ⟨-, -, hlb, -, -, -⟩ := validateQuery_ok_fields st q r h
  have hc : ¬ (jsTruthyOptStr q.service && !(st.services.contains (q.service.getD ""))) = true := by
    intro hcc
    rw [validateQuery_eq, if_pos hcc] at h
    exact absurd h (by simp)
  refine ⟨?_, ?_, ?_, ?_⟩
  · intro s hq hne hm
    rw [hlb, hq]
    simp [lookbackStep, bne_iff_ne.mpr hne, hm]
  · intro s hq hm
    rw [hlb, hq]
    simp [lookbackStep, hm]
  · intro hq
    rw [hlb, hq]
    decide
  · intro l'
    exact ⟨_, by rw [validateQuery_eq, if_neg (by simpa using hc)]⟩

/-- C4 (witness): concrete run of the amended theorem — the malformed
lookback `"soon"` is silently corrected to `"1h"`. -/
theorem C4_witness :
    validateQuery ⟨[], fun _ => none⟩ ({ lookback := some "soon" } : JaegerQuery) =
      .ok { lookback := some "1h", limit := some (.num 100) } ∧
    ({ lookback := some "1h", limit := some (.num 100) } : JaegerQuery).lookback = some "1h" :=
  ⟨by decide,
   (C4_thm ⟨[], fun _ => none⟩ { lookback := some "soon" }
      { lookback := some "1h", limit := some (.num 100) } (by decide)).1
     "soon" rfl (by decide) (by decide)⟩

/-- C5 (counterexample): the claim says every present `minDuration` that
fails `^\d+(\.\d+)?[hdms]$` is removed from the result; but the source
guards the rule with JS truthiness (`if (query.minDuration && ...)`), so
the present empty duration `""` — which does not match the pattern — stays
present in the returned query. -/
theorem C5_cex :
    validateQuery ⟨[], fun _ => none⟩ ({ minDuration := some "" } : JaegerQuery) =
      .ok { minDuration := some "", limit := some (.num 100) } ∧
    matchDuration "".data = false := by
  constructor
  · decide
  · decide

/-- C5 (amended): a present, non-empty `minDuration` / `maxDuration` that
does not match `^\d+(\.\d+)?[hdms]$` is removed entirely (never defaulted);
a matching one is preserved unchanged; the present empty string `""`
escapes the truthiness guard and is preserved as-is. -/
theorem C5_thm (st : CState) (q r : JaegerQuery) (h : validateQuery st q = .ok r) :
    (∀ s, q.minDuration = some s → s ≠ "" → matchDuration s.data = false →
      r.minDuration = none) ∧
    (∀ s, q.minDuration = some s → matchDuration s.data = true → r.minDuration = some s) ∧
    (q.minDuration = some "" → r.minDuration = some "") ∧
    (∀ s, q.maxDuration = some s → s ≠ "" → matchDuration s.data = false →
      r.maxDuration = none) ∧
    (∀ s, q.maxDuration = some s → matchDuration s.data = true → r.maxDuration = some s) ∧
    (q.maxDuration = some "" → r.maxDuration = some "") := by
  obtain ⟨-, -, -, -, hmin, hmax⟩ := validateQuery_ok_fields st q r h
  refine ⟨?_, ?_, ?_, ?_, ?_, ?_⟩
  · intro s hq hne hm
    rw [hmin, hq]
    simp [durationStep, bne_iff_ne.mpr hne, hm]
  · intro s hq hm
    rw [hmin, hq]
    simp [durationStep, hm]
  · intro hq
    rw [hmin, hq]
    decide
  · intro s hq hne hm
    rw [hmax, hq]
    simp [durationStep, bne_iff_ne.mpr hne, hm]
  · intro s hq hm
    rw [hmax, hq]
    simp [durationStep, hm]
  · intro hq
    rw [hmax, hq]
    decide

/-- C5 (witness): concrete run of the amended theorem — the malformed
`minDuration` `"fast"` is removed, the well-formed `maxDuration` `"2.5s"`
is preserved. -/
theorem C5_witness :
    validateQuery ⟨[], fun _ => none⟩
        ({ minDuration := some "fast", maxDuration := some "2.5s" } : JaegerQuery) =
      .ok { maxDuration := some "2.5s", limit := some (.num 100) } ∧
    ({ maxDuration := some "2.5s", limit := some (.num 100) } : JaegerQuery).minDuration = none ∧
    ({ maxDuration := some "2.5s", limit := some (.num 100) } : JaegerQuery).maxDuration =
      some "2.5s" :=
  ⟨by decide,
   (C5_thm ⟨[], fun _ => none⟩ { minDuration := some "fast", maxDuration := some "2.5s" }
      { maxDuration := some "2.5s", limit := some (.num 100) } (by decide)).1
     "fast" rfl (by decide) (by decide),
   (C5_thm ⟨[], fun _ => none⟩ { minDuration := some "fast", maxDuration := some "2.5s" }
      { maxDuration := some "2.5s", limit := some (.num 100) } (by decide)).2.2.2.2.1
     "2.5s" rfl (by decide)⟩

/-- A JSON value as produced by `JSON.parse`.  Numbers are modelled as
integers: the pipeline only ever consumes integer limits, and the model's
parser rejects fractional/exponent number syntax (a documented restriction
of the embedding, not of the source). -/
inductive JValue where
  | null
  | bool (b : Bool)
  | num (n : Int)
  | str (s : String)
  | arr (elems : List JValue)
  | obj (fields : List (String × JValue))

/-- The JSON string escape table (`\uXXXX` escapes are not modelled). -/
def escPairs : List (Char × Char) :=
  [('n', '\n'), ('t', '\t'), ('r', '\r'), ('b', '\x08'), ('f', '\x0c'),
   ('"', '"'), ('\\', '\\'), ('/', '/')]

/-- Decode one JSON string escape character via the table. -/
def escChar (e : Char) : Option Char :=
  (escPairs.find? (fun p => p.1 = e)).map (fun p => p.2)

/-- Parse the body of a JSON string after its opening quote; returns the
content and the remainder after the closing quote. -/
def jpStrBody : List Char → Option (List Char × List Char)
  | [] => none
  | '"' :: rest => some ([], rest)
  | '\\' :: e :: rest =>
    match escChar e with
    | none => none
    | some c =>
      match jpStrBody rest with
      | none => none
      | some (s, r) => some (c :: s, r)
  | c :: rest =>
    if c = '\\' then none
    else
      match jpStrBody rest with
      | none => none
      | some (s, r) => some (c :: s, r)

/-- JSON whitespace. -/
def jsonWs (c : Char) : Bool := c = ' ' || c = '\t' || c = '\n' || c = '\r'

/-- Drop leading JSON whitespace. -/
def dropWs (cs : List Char) : List Char := cs.dropWhile jsonWs

/-- Parse a JSON number (integer syntax only: optional minus, digits, no
leading zeros). -/
def jpNum (cs : List Char) : Option (JValue × List Char) :=
  let signAndRest : Bool × List Char :=
    match cs with
    | '-' :: r => (true, r)
    | r => (false, r)
  let ds := signAndRest.2.takeWhile Char.isDigit
  let rest := signAndRest.2.dropWhile Char.isDigit
  if ds.isEmpty then none
  else if ds.length > 1 && ds.headD '0' = '0' then none
  else
    let n : Int := Int.ofNat (ds.foldl (fun a c => a * 10 + (c.toNat - '0'.toNat)) 0)
    some (.num (if signAndRest.1 then -n else n), rest)

mutual

/-- Fuel-indexed recursive-descent JSON value parser (model of the grammar
accepted by `JSON.parse`, minus the documented number/escape restrictions).
The literal keywords are recognised by prefix test. -/
def jpVal : Nat → List Char → Option (JValue × List Char)
  | 0, _ => none
  | fuel+1, cs0 =>
    let cs := dropWs cs0
    if "null".data.isPrefixOf cs then some (.null, cs.drop 4)
    else if "true".data.isPrefixOf cs then some (.bool true, cs.drop 4)
    else if "false".data.isPrefixOf cs then some (.bool false, cs.drop 5)
    else
      match cs with
      | '"' :: r =>
        match jpStrBody r with
        | none => none
        | some (s, r2) => some (.str (String.mk s), r2)
      | '[' :: r =>
        match dropWs r with
        | ']' :: r2 => some (.arr [], r2)
        | _ => jpArrItems fuel r []
      | '\x7b' :: r =>
        match dropWs r with
        | '\x7d' :: r2 => some (.obj [], r2)
        | _ => jpObjItems fuel r []
      | cs2 => jpNum cs2

/-- Parse the comma-separated elements of a non-empty JSON array. -/
def jpArrItems : Nat → List Char → List JValue → Option (JValue × List Char)
  | 0, _, _ => none
  | fuel+1, cs, acc =>
    match jpVal fuel cs with
    | none => none
    | some (v, r) =>
      match dropWs r with
      | ',' :: r2 => jpArrItems fuel r2 (acc ++ [v])
      | ']' :: r2 => some (.arr (acc ++ [v]), r2)
      | _ => none

/-- Parse the comma-separated members of a non-empty JSON object. -/
def jpObjItems : Nat → List Char → List (String × JValue) → Option (JValue × List Char)
  | 0, _, _ => none
  | fuel+1, cs, acc =>
    match dropWs cs with
    | '"' :: r =>
      match jpStrBody r with
      | none => none
      | some (k, r2) =>
        match dropWs r2 with
        | ':' :: r3 =>
          match jpVal fuel r3 with
          | none => none
          | some (v, r4) =>
            match dropWs r4 with
            | ',' :: r5 => jpObjItems fuel r5 (acc ++ [(String.mk k, v)])
            | '\x7d' :: r5 => some (.obj (acc ++ [(String.mk k, v)]), r5)
            | _ => none
        | _ => none
    | _ => none

end

/-- Model of `JSON.parse`: parse one value and require only whitespace after
it. -/
def jsonParse (s : String) : Option JValue :=
  match jpVal (2 * s.data.length + 2) s.data with
  | some (v, rest) => if (dropWs rest).isEmpty then some v else none
  | none => none

/-- The substring captured by the regex `/\x7b[\s\S]*\x7d/`: from the first
`\x7b` of the text through the last `\x7d`, provided that `\x7d` comes after
the `\x7b`; `none` models a null match. -/
def braceSpan (cs : List Char) : Option (List Char) :=
  match cs.dropWhile (fun c => c ≠ '\x7b') with
  | [] => none
  | c :: rest =>
    match (rest.reverse.dropWhile (fun d => d ≠ '\x7d')).reverse with
    | [] => none
    | body => some (c :: body)

/-- The JSON-extraction logic of `translateQuery` (lines 199–210): strict
`JSON.parse` of the whole text first; on failure, apply the regex
`/\x7b[\s\S]*\x7d/` and parse the match; a null match throws the
no-valid-JSON `Error`, and a parse failure of the matched substring
re-throws the `JSON.parse` `SyntaxError`. -/
def extract (raw : String) : Except TError JValue :=
  match jsonParse raw with
  | some v => .ok v
  | none =>
    match braceSpan raw.data with
    | none => .error (.noJsonFound "No valid JSON object found in the response")
    | some sub =>
      match jsonParse (String.mk sub) with
      | some v => .ok v
      | none => .error .jsonSyntax

/-- Depth-counting scan for the claim's reading of extraction: collect
characters from an opening brace until the brace that matches it. -/
def scanDepth : Nat → List Char → List Char → Option (List Char)
  | _, _, [] => none
  | d, acc, c :: cs =>
    if c = '\x7b' then scanDepth (d+1) (c :: acc) cs
    else if c = '\x7d' then
      (if d = 1 then some (c :: acc).reverse else scanDepth (d-1) (c :: acc) cs)
    else scanDepth d (c :: acc) cs

/-- Modelled from the spec's words for claim C6 (refinement comparison
definition, not from the source): the substring from the first `\x7b`
through the `\x7d` matching it at the outermost level. -/
def matchingSpan (cs : List Char) : Option (List Char) :=
  match cs.dropWhile (fun c => c ≠ '\x7b') with
  | [] => none
  | c :: rest => scanDepth 1 [c] rest

/-- Modelled from the spec's words for claim C6 (refinement comparison
definition, not from the source): strict parse of the whole text, else
parse the matching-brace span, else fail. -/
def claimExtract (raw : String) : Except TError JValue :=
  match jsonParse raw with
  | some v => .ok v
  | none =>
    match matchingSpan raw.data with
    | none => .error (.noJsonFound "No valid JSON object found in the response")
    | some sub =>
      match jsonParse (String.mk sub) with
      | some v => .ok v
      | none => .error .jsonSyntax

example : jsonParse "\x7b\"service\":\"order\",\"limit\":10\x7d" =
    some (.obj [("service", .str "order"), ("limit", .num 10)]) := rfl
example : jsonParse "  [1, -2, true, null, \"x\"] " =
    some (.arr [.num 1, .num (-2), .bool true, .null, .str "x"]) := rfl
example : jsonParse "\x7b\"a\": \x7b\"b\": []\x7d\x7d" =
    some (.obj [("a", .obj [("b", .arr [])])]) := rfl
example : jsonParse "01" = none := rfl
example : jsonParse "\x7b\"a\":1\x7d y" = none := rfl

/-- C6 (counterexample): the claim says the fallback takes the substring
from the first opening brace through the brace *matching* it; the source's
regex `/\x7b[\s\S]*\x7d/` is greedy and takes everything through the *last*
closing brace.  On a text with two JSON objects the source's span is
unparsable and extraction fails, while the claim's matching-brace reading
returns the first object. -/
theorem C6_cex :
    extract "x \x7b\"a\":1\x7d y \x7b\"b\":2\x7d z" = .error .jsonSyntax ∧
    claimExtract "x \x7b\"a\":1\x7d y \x7b\"b\":2\x7d z" = .ok (.obj [("a", .num 1)]) :=
  ⟨rfl, rfl⟩

/-- C6 (amended): extraction first attempts a strict JSON parse of the
entire text; on failure it takes the substring from the first opening brace
through the *last* closing brace of the text (failing with the
no-valid-JSON error when there is none) and parses that, a parse failure of
that substring also failing the extraction; on the concrete prose-wrapped
input of the claim it returns the object with service `"order"` and limit
`10`. -/
theorem C6_thm :
    (∀ s v, jsonParse s = some v → extract s = .ok v) ∧
    (∀ s, jsonParse s = none →
      extract s =
        (match braceSpan s.data with
         | none => .error (.noJsonFound "No valid JSON object found in the response")
         | some sub =>
           match jsonParse (String.mk sub) with
           | some v => .ok v
           | none => .error .jsonSyntax)) ∧
    extract "Sure! Here is the JSON: \x7b\"service\":\"order\",\"limit\":10\x7d Hope that helps." =
      .ok (.obj [("service", .str "order"), ("limit", .num 10)]) := by
  refine ⟨?_, ?_, rfl⟩
  · intro s v hp
    unfold extract
    rw [hp]
  · intro s hp
    unfold extract
    rw [hp]

/-- C6 (witness): concrete runs of the amended theorem — a bare JSON text
parses strictly, and a brace-free text fails with the no-valid-JSON error. -/
theorem C6_witness :
    extract "\x7b\"a\": true\x7d" = .ok (.obj [("a", .bool true)]) ∧
    extract "no json here" = .error (.noJsonFound "No valid JSON object found in the response") :=
  ⟨C6_thm.1 "\x7b\"a\": true\x7d" (.obj [("a", .bool true)]) rfl,
   (C6_thm.2.1 "no json here" rfl).trans rfl⟩

/-- Liveness outcome of the generation endpoint's health check: `up` models
a 2xx response; the three failure modes are a non-2xx status, exceeding the
5-second timeout, and a connection failure (all handled identically by the
source's `catch`). -/
inductive HealthOutcome where
  | up
  | non2xx
  | timeout
  | connFail
  deriving DecidableEq

/-- Observable network/log events of one `translateQuery` call, in order of
occurrence.  The concurrent per-service operations fetches are recorded in
the order the source issues them (`this.services.map`). -/
inductive Ev where
  | healthReq
  | svcListReq
  | opsReq (s : String)
  | opsFailLogged (s : String)
  | genReq
  deriving DecidableEq

/-- Oracle for the network: the outcome each endpoint would return during
this call.  `gen` receives the rendered prompt and returns the `response`
field of the generation body. -/
structure World where
  health : HealthOutcome
  svcList : Except Unit (List String)
  ops : String → Except Unit (List String)
  gen : String → Except Unit String

/-- Message of the error thrown when the health check fails. -/
def ollamaMsg : String :=
  "Ollama service is not available. Please ensure Ollama is installed and running on port 11434. Visit https://ollama.ai for installation instructions."

/-- Message of the error thrown when the service-list fetch fails. -/
def metadataMsg : String := "Failed to fetch available services. Please try again later."

/-- Message of the error thrown when the generation request fails (the
response's status text is abstracted away). -/
def genFailMsg : String := "API request failed"

/-- The fan-out of `fetchServiceOperations` over the service list
(`Promise.all(this.services.map(...))`): each fetch writes its service's
routes entry, an operations-fetch failure writing the empty list and
logging instead of failing. -/
def fetchOpsAll (w : World) : List String → (String → Option (List String)) →
    ((String → Option (List String)) × List Ev)
  | [], m => (m, [])
  | s :: rest, m =>
    let entry : List String := match w.ops s with | .ok rs => rs | .error _ => []
    let evHere : List Ev :=
      match w.ops s with
      | .ok _ => [.opsReq s]
      | .error _ => [.opsReq s, .opsFailLogged s]
    let res := fetchOpsAll w rest (fun t => if t = s then some entry else m t)
    (res.1, evHere ++ res.2)

/-- Model of `AITranslationService.fetchServices`: fetch the service list (a failure
throws the metadata error), then fetch operations for every service. -/
def fetchServices (st : CState) (w : World) : Except TError CState × List Ev :=
  match w.svcList with
  | .error _ => (.error (.metadataFetch metadataMsg), [.svcListReq])
  | .ok ss =>
    let res := fetchOpsAll w ss st.routes
    (.ok { services := ss, routes := res.1 }, .svcListReq :: res.2)

/-- The `if (this.services.length === 0) await this.fetchServices()` guard
of `translateQuery`. -/
def ensureLoaded (st : CState) (w : World) : Except TError CState × List Ev :=
  if st.services.isEmpty then fetchServices st w else (.ok st, [])

/-- The narrowed metadata view built when a service is pre-selected.  The
source indexes `this.serviceRoutes[context.selectedService]` without a `?.`
guard, so a missing entry is an untyped runtime `TypeError` (`none` here). -/
def narrowInfo (st : CState) (sel : String) : Option String :=
  match st.routes sel with
  | none => none
  | some rs => some ("Selected service: " ++ sel ++ "\nAvailable routes: " ++ joinSep ", " rs)

/-- Map a fallible function over a list, failing at the first `none` — the
JS `Array.prototype.map` whose callback may throw (the `TypeError` of a
missing routes entry propagates at the first offending element). -/
def mapOptionAll {α β : Type} (f : α → Option β) : List α → Option (List β)
  | [] => some []
  | x :: xs => (f x).bind fun y => (mapOptionAll f xs).map fun ys => y :: ys

/-- The full metadata view: one line per service.  As in the source, a
service without a routes entry is an untyped runtime `TypeError` (`none`). -/
def fullInfo (st : CState) : Option String :=
  (mapOptionAll (fun s =>
    (st.routes s).map (fun rs => s ++ " (routes: " ++ joinSep ", " rs ++ ")")) st.services).map
    (joinSep "\n")

/-- Source: `context?.selectedService ? narrowed : full` — a truthiness test. -/
def servicesInfo (st : CState) (ctx : Option String) : Option String :=
  if jsTruthyOptStr ctx then narrowInfo st (ctx.getD "") else fullInfo st

/-- The first field of `SYSTEM_PROMPT` to be substituted. -/
def svcPat : List Char := "{services}".data

/-- The second field of `SYSTEM_PROMPT` to be substituted. -/
def qryPat : List Char := "{query}".data

/-- JS `String.prototype.replace` with a string pattern: replace the first
occurrence of `pat` by `rep` (JS `$`-substitution sequences inside the
replacement are not modelled; the patterns used here are non-empty). -/
def replFirst (pat rep : List Char) : List Char → List Char
  | [] => []
  | c :: cs =>
    if pat.isPrefixOf (c :: cs) then rep ++ (c :: cs).drop pat.length
    else c :: replFirst pat rep cs

/-- The prompt construction of `translateQuery`:
`SYSTEM_PROMPT.replace('\x7bservices\x7d', servicesInfo).replace('\x7bquery\x7d', query)`. -/
def renderPrompt (t m q : String) : String :=
  String.mk (replFirst qryPat q.data (replFirst svcPat m.data t.data))

/-- Model of `AITranslationService.SYSTEM_PROMPT`, verbatim (template literal of the
source, lines 13–97). -/
def systemPrompt : String :=
  "\n### Instructions:\nYour task is to convert a natural language question into a Jaeger trace search query, formatted as a JSON object that adheres to the following interface:\n- **Fields**:\n  - service: string (must be one of the available services listed below)\n  - tags: string (logfmt format, e.g., \"error=true http.status_code=500 http.method=GET http.route=/v1/login\")\n  - lookback: string (time window, e.g., \"1h\", \"24h\", \"7d\")\n  - limit: number (integer, e.g., 100, 20)\n  - minDuration: string (e.g., \"100ms\", \"1s\", \"2m\")\n  - maxDuration: string (e.g., \"5s\", \"1m\", \"10m\")\n\n### Available Services and Routes:\n{services}\n\n### Rules:\n- Analyze the question carefully, word by word, to map terms to the correct fields.\n- Use only the fields listed above; do not invent new fields like \"outcome\" or \"status\".\n- For tags, use common HTTP or error-related keys (e.g., \"error\", \"http.status_code\", \"http.method\", \"http.route\") when applicable.\n- When specifying routes, use the exact route from the available routes list in the format \"http.route=/exact/route\".\n- If a term doesn\x27t clearly map to a field, omit it or include it in \"tags\" if it fits logfmt format.\n- If no limit is specified, default to 100.\n- The service field MUST be one of the available services listed above.\n- IMPORTANT: Respond with ONLY the JSON object. Do not include any explanatory text, notes, or comments.\n- The response must be a valid JSON object that can be parsed directly.\n\n### Examples:\n\n#### Input: \"What are the slowest traces for the payment service in the last 2 hours?\"\n#### Output:\n\x7b\n  \"service\": \"payment\",\n  \"lookback\": \"2h\",\n  \"minDuration\": \"1s\",\n  \"limit\": 100\n\x7d\n\n#### Input: \"Show me traces for the auth-service with route /v1/login over the past 24 hours.\"\n#### Output:\n\x7b\n  \"service\": \"auth-service\",\n  \"tags\": \"http.route=/v1/login\",\n  \"lookback\": \"24h\",\n  \"limit\": 100\n\x7d\n\n#### Input: \"Find traces for the order service that failed with status 500 in the last 1 hour.\"\n#### Output:\n\x7b\n  \"service\": \"order\",\n  \"tags\": \"error=true http.status_code=500\",\n  \"lookback\": \"1h\",\n  \"limit\": 100\n\x7d\n\n#### Input: \"What traces in the payment service took between 500ms and 2s in the last 3 days?\"\n#### Output:\n\x7b\n  \"service\": \"payment\",\n  \"lookback\": \"3d\",\n  \"minDuration\": \"500ms\",\n  \"maxDuration\": \"2s\",\n  \"limit\": 100\n\x7d\n\n#### Input: \"Show traces for the checkout service with GET requests that failed yesterday.\"\n#### Output:\n\x7b\n  \"service\": \"checkout\",\n  \"tags\": \"http.method=GET error=true\",\n  \"lookback\": \"24h\",\n  \"limit\": 100\n\x7d\n\n#### Input: \"Give me the 50 slowest traces for the boatcruize-backend service.\"\n#### Output:\n\x7b\n  \"service\": \"boatcruize-backend\",\n  \"minDuration\": \"1s\",\n  \"limit\": 50\n\x7d\n\n### Input:\n\"{query}\"\n### Output:\n"

/-- Last-wins lookup of an object field, as JS object literals with
duplicate keys keep the last occurrence. -/
def lookupLast (fields : List (String × JValue)) (k : String) : Option JValue :=
  ((fields.filter (fun p => p.1 == k)).getLast?).map (fun p => p.2)

/-- Read a string-typed field of the parsed object; `none` when the field is
present with a non-string value (see `toCandidate`). -/
def readStrField (fields : List (String × JValue)) (k : String) : Option (Option String) :=
  match lookupLast fields k with
  | none => some none
  | some (.str s) => some (some s)
  | some _ => none

/-- Interpret the parsed JSON object as the `JaegerQuery` that the source
passes on to `validateQuery`.  The model accepts the runtime shapes the
source handles (strings for the string fields, number or string for
`limit`); any other shape — which the untyped source would push into
assorted dynamic behaviours — is mapped to `typeError` here and is not
exercised by any theorem in this file. -/
def toCandidate : JValue → Except TError JaegerQuery
  | .obj fields =>
    let limitv : Option (Option LimitVal) :=
      match lookupLast fields "limit" with
      | none => some none
      | some (.num n) => some (some (.num n))
      | some (.str s) => some (some (.str s))
      | some _ => none
    match readStrField fields "service", readStrField fields "tags",
          readStrField fields "lookback", limitv,
          readStrField fields "minDuration", readStrField fields "maxDuration" with
    | some sv, some tg, some lb, some lv, some mn, some mx =>
      .ok { service := sv, tags := tg, lookback := lb, limit := lv,
            minDuration := mn, maxDuration := mx }
    | _, _, _, _, _, _ => .error .typeError
  | _ => .error .typeError

/-- Body of `translateQuery` after a successful health check: ensure the
catalog is loaded, build the metadata view (a missing routes entry is the
source's untyped `TypeError`), render the prompt, issue the generation
request, extract the JSON, and validate. -/
def afterHealth (st : CState) (w : World) (q : String) (ctx : Option String) :
    Except TError JaegerQuery × CState × List Ev :=
  let el := ensureLoaded st w
  match el.1 with
  | .error e => (.error e, st, el.2)
  | .ok st2 =>
    match servicesInfo st2 ctx with
    | none => (.error .typeError, st2, el.2)
    | some info =>
      let prompt := renderPrompt systemPrompt info q
      match w.gen prompt with
      | .error _ => (.error (.generationFailed genFailMsg), st2, el.2 ++ [.genReq])
      | .ok raw =>
        match extract raw with
        | .error e => (.error e, st2, el.2 ++ [.genReq])
        | .ok v =>
          match toCandidate v with
          | .error e => (.error e, st2, el.2 ++ [.genReq])
          | .ok cand =>
            match validateQuery st2 cand with
            | .error e => (.error e, st2, el.2 ++ [.genReq])
            | .ok res => (.ok res, st2, el.2 ++ [.genReq])

/-- Model of `AITranslationService.translateQuery`: the health check runs first on
every call; any of its failure modes throws the backend-unavailable error
before anything else happens. -/
def translateQuery (st : CState) (w : World) (q : String) (ctx : Option String) :
    Except TError JaegerQuery × CState × List Ev :=
  match w.health with
  | .up =>
    let t := afterHealth st w q ctx
    (t.1, t.2.1, .healthReq :: t.2.2)
  | _ => (.error (.backendUnavailable ollamaMsg), st, [.healthReq])

example :
    (translateQuery ⟨[], fun _ => none⟩
      ⟨.up, .ok ["payment"], fun _ => .ok [],
       fun _ => .ok "\x7b\"service\":\"payment\",\"lookback\":\"2h\",\"minDuration\":\"1s\",\"limit\":100\x7d"⟩
      "slowest traces for payment in the last 2 hours" none).1 =
    .ok { service := some "payment", lookback := some "2h", minDuration := some "1s",
          limit := some (.num 100) } := by
  decide

example :
    (translateQuery ⟨[], fun _ => none⟩
      ⟨.timeout, .ok ["payment"], fun _ => .ok [], fun _ => .ok "irrelevant"⟩ "q" none).2.2 =
    [.healthReq] := by
  decide

theorem genReq_not_in_fetchOpsAll (w : World) (ss : List String)
    (m : String → Option (List String)) : Ev.genReq ∉ (fetchOpsAll w ss m).2 := by
  induction ss generalizing m with
  | nil => simp [fetchOpsAll]
  | cons s rest ih =>
    simp only [fetchOpsAll]
    cases hop : w.ops s <;> simp [List.mem_append, ih]

theorem genReq_not_in_ensureLoaded (st : CState) (w : World) :
    Ev.genReq ∉ (ensureLoaded st w).2 := by
  unfold ensureLoaded fetchServices
  by_cases hs : st.services.isEmpty = true
  · rw [if_pos hs]
    cases hsl : w.svcList with
    | error e => simp
    | ok ss => simpa using genReq_not_in_fetchOpsAll w ss st.routes
  · rw [if_neg hs]
    simp

/-- C7: in every `translateQuery` call the liveness check runs first —
regardless of the cached state, so no liveness result is carried across
calls — and when it fails (non-2xx, timeout, or connection failure alike)
the call fails with the backend-unavailable error carrying the remediation
message, the trace being the health request alone: the generation request
is never issued. -/
theorem C7_thm (st : CState) (w : World) (q : String) (ctx : Option String)
    (h : w.health ≠ .up) :
    (translateQuery st w q ctx).1 = .error (.backendUnavailable ollamaMsg) ∧
    (translateQuery st w q ctx).2.2 = [.healthReq] ∧
    Ev.genReq ∉ (translateQuery st w q ctx).2.2 ∧
    (∀ st2 w2 q2 ctx2, ((translateQuery st2 w2 q2 ctx2).2.2).head? = some .healthReq) := by
  have hmain : translateQuery st w q ctx =
      (.error (.backendUnavailable ollamaMsg), st, [.healthReq]) := by
    cases hh : w.health with
    | up => exact absurd hh h
    | non2xx => simp [translateQuery, hh]
    | timeout => simp [translateQuery, hh]
    | connFail => simp [translateQuery, hh]
  refine ⟨by rw [hmain], by rw [hmain], by rw [hmain]; simp, ?_⟩
  intro st2 w2 q2 ctx2
  cases hh : w2.health with
  | up => simp [translateQuery, hh]
  | non2xx => simp [translateQuery, hh]
  | timeout => simp [translateQuery, hh]
  | connFail => simp [translateQuery, hh]

/-- C7 (witness): concrete run — a timed-out health check yields the
backend-unavailable error and a trace of just the health request. -/
theorem C7_witness :
    (translateQuery ⟨["a"], fun _ => some []⟩
        ⟨.timeout, .ok [], fun _ => .ok [], fun _ => .ok ""⟩ "q" none).1 =
      .error (.backendUnavailable ollamaMsg) ∧
    (translateQuery ⟨["a"], fun _ => some []⟩
        ⟨.timeout, .ok [], fun _ => .ok [], fun _ => .ok ""⟩ "q" none).2.2 = [.healthReq] :=
  ⟨(C7_thm ⟨["a"], fun _ => some []⟩ ⟨.timeout, .ok [], fun _ => .ok [], fun _ => .ok ""⟩
      "q" none (by decide)).1,
   (C7_thm ⟨["a"], fun _ => some []⟩ ⟨.timeout, .ok [], fun _ => .ok [], fun _ => .ok ""⟩
      "q" none (by decide)).2.1⟩

/-- C10: when the caller pre-selects a (truthy) service that has no entry
in the per-service routes map after the catalog is ensured loaded,
`translateQuery` fails with the untyped runtime `TypeError` raised while
building the narrowed metadata view — the generation request is never
issued and the failure is not an `InvalidServiceError`. -/
theorem C10_thm (st : CState) (w : World) (q : String) (sel : String) (st2 : CState)
    (evs : List Ev) (hh : w.health = .up) (hsel : sel ≠ "")
    (hl : ensureLoaded st w = (.ok st2, evs)) (hr : st2.routes sel = none) :
    (translateQuery st w q (some sel)).1 = .error .typeError ∧
    (translateQuery st w q (some sel)).2.2 = .healthReq :: evs ∧
    Ev.genReq ∉ (translateQuery st w q (some sel)).2.2 ∧
    (∀ msg, (translateQuery st w q (some sel)).1 ≠ .error (.invalidService msg)) := by
  have hserv : servicesInfo st2 (some sel) = none := by
    simp [servicesInfo, jsTruthyOptStr, bne_iff_ne.mpr hsel, narrowInfo, hr]
  have hmain : translateQuery st w q (some sel) = (.error .typeError, st2, .healthReq :: evs) := by
    simp only [translateQuery, hh]
    simp only [afterHealth, hl, hserv]
  have hgen : Ev.genReq ∉ evs := by
    have := genReq_not_in_ensureLoaded st w
    rw [hl] at this
    exact this
  refine ⟨by rw [hmain], by rw [hmain], ?_, ?_⟩
  · rw [hmain]
    simp [hgen]
  · intro msg
    rw [hmain]
    simp

/-- C10 (witness): concrete run — pre-selecting the unknown service
`"zzz"` against a loaded catalog whose routes map only knows `"a"` fails
with the `TypeError` and never issues the generation request. -/
theorem C10_witness :
    (translateQuery ⟨["a"], fun t => if t = "a" then some [] else none⟩
        ⟨.up, .ok [], fun _ => .ok [], fun _ => .ok ""⟩ "q" (some "zzz")).1 =
      .error .typeError ∧
    Ev.genReq ∉ (translateQuery ⟨["a"], fun t => if t = "a" then some [] else none⟩
        ⟨.up, .ok [], fun _ => .ok [], fun _ => .ok ""⟩ "q" (some "zzz")).2.2 :=
  ⟨(C10_thm ⟨["a"], fun t => if t = "a" then some [] else none⟩
      ⟨.up, .ok [], fun _ => .ok [], fun _ => .ok ""⟩ "q" "zzz"
      ⟨["a"], fun t => if t = "a" then some [] else none⟩ [] rfl (by decide) rfl rfl).1,
   (C10_thm ⟨["a"], fun t => if t = "a" then some [] else none⟩
      ⟨.up, .ok [], fun _ => .ok [], fun _ => .ok ""⟩ "q" "zzz"
      ⟨["a"], fun t => if t = "a" then some [] else none⟩ [] rfl (by decide) rfl rfl).2.2.1⟩

theorem fetchOpsAll_routes_not_mem (w : World) (ss : List String)
    (m : String → Option (List String)) (s : String) (h : s ∉ ss) :
    (fetchOpsAll w ss m).1 s = m s := by
  induction ss generalizing m with
  | nil => rfl
  | cons a rest ih =>
    have hna : s ≠ a := fun hh => h (hh ▸ List.mem_cons_self a rest)
    have hnr : s ∉ rest := fun hh => h (List.mem_cons_of_mem a hh)
    simp only [fetchOpsAll]
    rw [ih _ hnr]
    simp [hna]

theorem fetchOpsAll_routes_mem (w : World) (ss : List String) (s : String)
    (m : String → Option (List String)) (hmem : s ∈ ss) :
    (fetchOpsAll w ss m).1 s =
      some (match w.ops s with | .ok rs => rs | .error _ => []) := by
  induction ss generalizing m with
  | nil => cases hmem
  | cons a rest ih =>
    by_cases hsr : s ∈ rest
    · simp only [fetchOpsAll]
      exact ih _ hsr
    · have hsa : s = a := by
        rcases List.mem_cons.mp hmem with h | h
        · exact h
        · exact absurd h hsr
      subst hsa
      simp only [fetchOpsAll]
      rw [fetchOpsAll_routes_not_mem w rest _ s hsr]
      simp

theorem opsFail_in_fetchOpsAll (w : World) (ss : List String)
    (m : String → Option (List String)) (s : String) (hmem : s ∈ ss)
    (hf : w.ops s = .error ()) : Ev.opsFailLogged s ∈ (fetchOpsAll w ss m).2 := by
  induction ss generalizing m with
  | nil => cases hmem
  | cons a rest ih =>
    simp only [fetchOpsAll]
    rcases List.mem_cons.mp hmem with h | h
    · subst h
      simp [hf]
    · cases hop : w.ops a <;> simp [List.mem_append, ih _ h]

theorem mapOptionAll_isSome {α β : Type} (f : α → Option β) (l : List α)
    (h : ∀ a ∈ l, (f a).isSome = true) : (mapOptionAll f l).isSome = true := by
  induction l with
  | nil => rfl
  | cons a rest ih =>
    have ha : (f a).isSome = true := h a (List.mem_cons_self a rest)
    have hr : (mapOptionAll f rest).isSome = true :=
      ih (fun b hb => h b (List.mem_cons_of_mem a hb))
    rcases Option.isSome_iff_exists.mp ha with ⟨b, hb⟩
    rcases Option.isSome_iff_exists.mp hr with ⟨bs, hbs⟩
    simp [mapOptionAll, hb, hbs]

/-- C8: during catalog population a failing service-list fetch fails the
whole translation with the metadata error (trace: health check and service
list only), whereas a failing per-service operations fetch is non-fatal —
that service's route set is recorded as the empty list, the failure appears
only as a logged event, and with the generation responding the translation
completes successfully. -/
theorem C8_thm (st : CState) (w : World) (q : String) (s : String) (ss : List String)
    (hh : w.health = .up) (he : st.services = []) :
    (w.svcList = .error () →
      (translateQuery st w q none).1 = .error (.metadataFetch metadataMsg) ∧
      (translateQuery st w q none).2.2 = [.healthReq, .svcListReq]) ∧
    (w.svcList = .ok ss → s ∈ ss → w.ops s = .error () →
      (∃ st2 evs, fetchServices st w = (.ok st2, evs) ∧ st2.routes s = some [] ∧
        Ev.opsFailLogged s ∈ evs) ∧
      (w.gen = (fun _ => .ok "\x7b\"limit\": 5\x7d") →
        (translateQuery st w q none).1 = .ok { limit := some (.num 5) })) := by
  have hempty : st.services.isEmpty = true := by rw [he]; rfl
  constructor
  · intro hsl
    have hEL : ensureLoaded st w = (.error (.metadataFetch metadataMsg), [.svcListReq]) := by
      unfold ensureLoaded fetchServices
      rw [if_pos hempty, hsl]
    constructor
    · simp only [translateQuery, hh, afterHealth, hEL]
    · simp only [translateQuery, hh, afterHealth, hEL]
  · intro hsl hmem hops
    have hFS : fetchServices st w =
        (.ok ⟨ss, (fetchOpsAll w ss st.routes).1⟩, .svcListReq :: (fetchOpsAll w ss st.routes).2) := by
      unfold fetchServices
      rw [hsl]
    have hroutes : ∀ t ∈ ss, (fetchOpsAll w ss st.routes).1 t =
        some (match w.ops t with | .ok rs => rs | .error _ => []) :=
      fun t ht => fetchOpsAll_routes_mem w ss t st.routes ht
    constructor
    · refine ⟨_, _, hFS, ?_,
        List.mem_cons_of_mem _ (opsFail_in_fetchOpsAll w ss st.routes s hmem hops)⟩
      show (fetchOpsAll w ss st.routes).1 s = some []
      rw [hroutes s hmem, hops]
    · intro hgen
      have hEL : ensureLoaded st w =
          (.ok ⟨ss, (fetchOpsAll w ss st.routes).1⟩,
           .svcListReq :: (fetchOpsAll w ss st.routes).2) := by
        unfold ensureLoaded
        rw [if_pos hempty]
        exact hFS
      have hinfo : ∃ info,
          servicesInfo ⟨ss, (fetchOpsAll w ss st.routes).1⟩ none = some info := by
        rw [show servicesInfo ⟨ss, (fetchOpsAll w ss st.routes).1⟩ none =
            fullInfo ⟨ss, (fetchOpsAll w ss st.routes).1⟩ from rfl]
        unfold fullInfo
        have hsome : (mapOptionAll (fun t =>
            ((fetchOpsAll w ss st.routes).1 t).map
              (fun rs => t ++ " (routes: " ++ joinSep ", " rs ++ ")")) ss).isSome = true := by
          refine mapOptionAll_isSome _ ss (fun t ht => ?_)
          rw [hroutes t ht]
          rfl
        rcases Option.isSome_iff_exists.mp hsome with ⟨v, hv⟩
        exact ⟨_, by rw [hv]; rfl⟩
      rcases hinfo with ⟨info, hinfo⟩
      have hx : extract "\x7b\"limit\": 5\x7d" = .ok (.obj [("limit", .num 5)]) := rfl
      have hc : toCandidate (.obj [("limit", .num 5)]) =
          .ok { limit := some (.num 5) } := rfl
      have hv : validateQuery ⟨ss, (fetchOpsAll w ss st.routes).1⟩
          { limit := some (.num 5) } = .ok { limit := some (.num 5) } := rfl
      simp only [translateQuery, hh, afterHealth, hEL, hinfo, hgen, hx, hc, hv]

/-- C8 (witness): concrete run of the theorem — catalog `["a", "b"]` with
the operations fetch for `"a"` failing: its route set is recorded empty,
the failure is only logged, and the translation still returns the query
from the generation response. -/
theorem C8_witness :
    (∃ st2 evs,
      fetchServices ⟨[], fun _ => none⟩
          ⟨.up, .ok ["a", "b"], fun t => if t = "a" then .error () else .ok ["/r"],
           fun _ => .ok "\x7b\"limit\": 5\x7d"⟩ = (.ok st2, evs) ∧
      st2.routes "a" = some [] ∧ Ev.opsFailLogged "a" ∈ evs) ∧
    (translateQuery ⟨[], fun _ => none⟩
        ⟨.up, .ok ["a", "b"], fun t => if t = "a" then .error () else .ok ["/r"],
         fun _ => .ok "\x7b\"limit\": 5\x7d"⟩ "q" none).1 =
      .ok { limit := some (.num 5) } := by
  have h := (C8_thm ⟨[], fun _ => none⟩
      ⟨.up, .ok ["a", "b"], fun t => if t = "a" then .error () else .ok ["/r"],
       fun _ => .ok "\x7b\"limit\": 5\x7d"⟩ "q" "a" ["a", "b"] rfl rfl).2
    rfl (by decide) (by decide)
  exact ⟨h.1, h.2 rfl⟩

/-- Replacing the first occurrence: when the pattern occurs at position
`a.length` and at no earlier position, `replFirst` rewrites exactly that
occurrence. -/
theorem replFirst_split (pat rep a r : List Char) (hpa : pat ≠ [])
    (h : ∀ n, n < a.length → pat.isPrefixOf ((a ++ pat ++ r).drop n) = false) :
    replFirst pat rep (a ++ pat ++ r) = a ++ rep ++ r := by
  induction a with
  | nil =>
    cases pat with
    | nil => exact absurd rfl hpa
    | cons c cs =>
      have hpre : (c :: cs).isPrefixOf ((c :: cs) ++ r) = true :=
        List.isPrefixOf_iff_prefix.mpr (List.prefix_append _ _)
      show replFirst (c :: cs) rep ((c :: cs) ++ r) = rep ++ r
      rw [show (c :: cs) ++ r = c :: (cs ++ r) from rfl]
      simp only [replFirst]
      rw [show (c :: (cs ++ r)) = (c :: cs) ++ r from rfl, if_pos hpre, List.drop_left]
  | cons x a' ih =>
    have h0 : pat.isPrefixOf (x :: (a' ++ pat ++ r)) = false := by
      have := h 0 (by simp)
      simpa using this
    show replFirst pat rep (x :: (a' ++ pat ++ r)) = x :: (a' ++ rep ++ r)
    simp only [replFirst]
    rw [if_neg (by rw [h0]; exact Bool.false_ne_true)]
    rw [ih (fun n hn => by
      have := h (n + 1) (by simpa using Nat.succ_lt_succ hn)
      simpa using this)]

/-- Find the first occurrence of `pat`: the text before it and the text
after it (`none` when `pat` does not occur). -/
def splitAtPat (pat : List Char) : List Char → Option (List Char × List Char)
  | [] => none
  | c :: cs =>
    if pat.isPrefixOf (c :: cs) then some ([], (c :: cs).drop pat.length)
    else
      match splitAtPat pat cs with
      | none => none
      | some pq => some (c :: pq.1, pq.2)

/-- Modelled from the spec's words for claim C9 (refinement comparison
definition, not from the source): replace the template's own first
occurrence of each placeholder — in template order, the substituted texts
never rescanned — yielding `none` when a placeholder is missing. -/
def renderClaim (t m q : String) : Option String :=
  match splitAtPat svcPat t.data with
  | none => none
  | some ar =>
    match splitAtPat qryPat ar.2 with
    | none => none
    | some bc => some (String.mk (ar.1 ++ m.data ++ bc.1 ++ q.data ++ bc.2))

/-- C9 (counterexample): the claim says each placeholder is replaced exactly
once with no other substitution anywhere; but the source's second
`.replace('\x7bquery\x7d', ...)` rescans the string produced by the first
replacement, so a metadata view containing the text `\x7bquery\x7d` is
itself substituted and the template's own `\x7bquery\x7d` placeholder
survives unreplaced, unlike the claim's reading. -/
theorem C9_cex :
    renderPrompt "A {services} B {query}" "{query}" "Q" = "A Q B {query}" ∧
    renderClaim "A {services} B {query}" "{query}" "Q" = some "A {query} B Q" :=
  ⟨rfl, rfl⟩

/-- C9 (amended): rendering replaces the first occurrence of `{services}`
with the metadata view and then the first occurrence of `{query}` in the
*resulting* string with the user query (JS `$`-substitution sequences not
modelled); when the template decomposes around single occurrences of the
two placeholders (in that order) and the metadata view re-introduces no
`{query}` occurrence before the template's own, the result is the claim's:
the template with each placeholder replaced exactly once. -/
theorem C9_thm (a b c m q : List Char)
    (h1 : ∀ n, n < a.length →
      svcPat.isPrefixOf ((a ++ svcPat ++ (b ++ qryPat ++ c)).drop n) = false)
    (h2 : ∀ n, n < (a ++ m ++ b).length →
      qryPat.isPrefixOf (((a ++ m ++ b) ++ qryPat ++ c).drop n) = false) :
    renderPrompt (String.mk (a ++ svcPat ++ (b ++ qryPat ++ c))) (String.mk m) (String.mk q)
      = String.mk ((a ++ m ++ b) ++ q ++ c) := by
  unfold renderPrompt
  rw [show (String.mk (a ++ svcPat ++ (b ++ qryPat ++ c))).data
      = a ++ svcPat ++ (b ++ qryPat ++ c) from rfl]
  rw [show (String.mk m).data = m from rfl, show (String.mk q).data = q from rfl]
  rw [replFirst_split svcPat m a (b ++ qryPat ++ c) (by decide) h1]
  rw [show a ++ m ++ (b ++ qryPat ++ c) = (a ++ m ++ b) ++ qryPat ++ c by
    simp [List.append_assoc]]
  rw [replFirst_split qryPat q (a ++ m ++ b) c (by decide) h2]

/-- C9 (witness): concrete run of the amended theorem — a well-behaved
template and metadata view render to the template with each placeholder
substituted once. -/
theorem C9_witness :
    renderPrompt (String.mk ("A ".data ++ svcPat ++ (" B ".data ++ qryPat ++ "!".data)))
        (String.mk "M".data) (String.mk "Q".data)
      = String.mk (("A ".data ++ "M".data ++ " B ".data) ++ "Q".data ++ "!".data) ∧
    String.mk (("A ".data ++ "M".data ++ " B ".data) ++ "Q".data ++ "!".data) = "A M B Q!" :=
  ⟨C9_thm "A ".data " B ".data "!".data "M".data "Q".data (by decide) (by decide), rfl⟩

end JaegerNL
